import Mathlib

/-!
Verification of the `pico_pydantic` argument-validation interceptor.

This file is a shallow embedding, in Lean 4, of the code in
`src/pico_pydantic/interceptor.py` and `src/pico_pydantic/decorators.py`:

* `Ann` models a Python type hint as seen by `_requires_pydantic_validation`
  (a class that subclasses `pydantic.BaseModel`, some other class, a generic
  alias exposing `__args__`, an absent hint `inspect.Parameter.empty`, or a
  hint whose introspection raises).
* `classifyCore` / `anyRequires` / `requiresPydanticValidation` model
  `ValidationInterceptor._requires_pydantic_validation`, with the `try/except`
  made explicit as an `Except` that is collapsed to `false` on error.
* `sigBindAux` / `bindKw` model `inspect.Signature.bind` restricted to
  positional-or-keyword parameters (the only kind the repository uses), and
  `applyDefaults` models `BoundArguments.apply_defaults`.
* `dualBind` models the `try: sig.bind(*args) except TypeError:
  sig.bind(*args[1:])` retry in `_validate_and_transform`.
* `processParam` / `transformParams` model the per-parameter loop of
  `_validate_and_transform`; the external pydantic engine
  (`TypeAdapter(annotation_hint).validate_python(val)`) is an abstract
  function parameter of type `Engine`.
* `splitBound` models the `BoundArguments.args` / `BoundArguments.kwargs`
  properties used to write the result back into the call context.
* `ValidationInterceptor.invoke` models `ValidationInterceptor.invoke`; its
  result (`InvokeTrace`) records the final call-context state, the outcome
  (continuation reached, wrapped `ValidationFailedError`, or an uncaught
  exception), the list of contexts the continuation was invoked with, and
  the per-parameter actions taken.
-/

namespace PicoPydantic

mutual
/-- A Python type hint as inspected by `_requires_pydantic_validation`:
`empty` is `inspect.Parameter.empty` (no hint); `baseModelClass` is a class
that subclasses `pydantic.BaseModel`; `otherClass` is any other plain class
(e.g. `int`, `NoneType`); `generic` is a parameterized alias exposing
`__args__` (e.g. `Optional[X]`, `List[X]`, `Union[X, Y]`); `raising` is a
hint whose introspection raises an exception. -/
inductive Ann where
  | empty
  | raising
  | baseModelClass (n : String)
  | otherClass (n : String)
  | generic (args : AnnArgs)
inductive AnnArgs where
  | nil
  | cons (hd : Ann) (tl : AnnArgs)
end

def AnnArgs.toList : AnnArgs → List Ann
  | .nil => []
  | .cons a t => a :: t.toList

mutual
/-- The body of the `try` block of `_requires_pydantic_validation`:
`issubclass(annotation_hint, BaseModel)` for classes, recursion through
`__args__` for generics, `False` otherwise; `raising` hints raise.  Each
recursive call is the full wrapped function, so inner failures are already
collapsed to `False` at the inner level and never propagate. -/
def classifyCore : Ann → Except String Bool
  | .raising => .error "introspection raised"
  | .empty => .ok false
  | .baseModelClass _ => .ok true
  | .otherClass _ => .ok false
  | .generic args => .ok (anyRequires args)
def anyRequires : AnnArgs → Bool
  | .nil => false
  | .cons a t =>
      (match classifyCore a with | .ok b => b | .error _ => false) || anyRequires t
end

/-- `ValidationInterceptor._requires_pydantic_validation`: the `try` body,
with any exception caught and turned into `False`. -/
def requiresPydanticValidation (a : Ann) : Bool :=
  match classifyCore a with
  | .ok b => b
  | .error _ => false

/-- Primitive Python values used as payloads of mappings and lists. -/
inductive PrimVal where
  | vnone
  | vint (n : Int)
  | vstr (s : String)
deriving DecidableEq

/-- A Python runtime value as it flows through the interceptor: the
interceptor treats argument values opaquely, handing them to the pydantic
engine unchanged, so a small closed universe suffices.  `obj` is an opaque
object (a receiver instance, a non-pydantic argument); `dict` is a raw
mapping; `model` is a validated pydantic model instance. -/
inductive PyVal where
  | none
  | int (n : Int)
  | str (s : String)
  | obj (id : Nat)
  | dict (fields : List (String × PrimVal))
  | model (typeName : String) (fields : List (String × PrimVal))
  | pylist (elems : List PrimVal)
deriving DecidableEq

/-- One declared parameter of a Python signature: its name, its type hint
(`Ann.empty` when absent), and its default value (`Option.none` when the
parameter has no default). -/
structure Param where
  name : String
  hint : Ann
  defaultVal : Option PyVal

/-- A Python signature as returned by `inspect.signature(func)`: an ordered
list of positional-or-keyword parameters. -/
structure Signature where
  params : List Param

def Signature.lookupParam (sig : Signature) (n : String) : Option Param :=
  sig.params.find? (fun p => p.name == n)

/-- The keyword phase of `Signature.bind`: for each remaining parameter (in
declaration order) take its value from the keyword mapping if present,
otherwise skip it when it has a default, otherwise raise
`missing a required argument`; leftover keywords raise
`got an unexpected keyword argument`. -/
def bindKw : List Param → List (String × PyVal) → Except String (List (String × PyVal))
  | [], kw =>
      if kw.isEmpty then .ok [] else .error "got an unexpected keyword argument"
  | p :: ps, kw =>
      match kw.lookup p.name with
      | some v =>
          match bindKw ps (kw.eraseP (fun q => q.1 == p.name)) with
          | .error e => .error e
          | .ok rest => .ok ((p.name, v) :: rest)
      | Option.none =>
          if p.defaultVal.isSome then bindKw ps kw
          else .error "missing a required argument"

/-- The positional phase of `Signature.bind`: assign positional arguments to
parameters in order, raising `too many positional arguments` when arguments
outrun parameters and `multiple values for argument` when a positionally
assigned parameter also appears among the keywords; then hand the remaining
parameters to the keyword phase. -/
def sigBindAux : List Param → List PyVal → List (String × PyVal) → Except String (List (String × PyVal))
  | ps, [], kw => bindKw ps kw
  | [], _ :: _, _ => .error "too many positional arguments"
  | p :: ps, a :: rest, kw =>
      if (kw.lookup p.name).isSome then .error "multiple values for argument"
      else
        match sigBindAux ps rest kw with
        | .error e => .error e
        | .ok m => .ok ((p.name, a) :: m)

/-- `inspect.signature(func).bind(*args, **kwargs)`: produces the
`BoundArguments.arguments` mapping, ordered by parameter declaration,
containing exactly the explicitly supplied parameters. -/
def sigBind (sig : Signature) (args : List PyVal) (kwargs : List (String × PyVal)) :
    Except String (List (String × PyVal)) :=
  sigBindAux sig.params args kwargs

/-- The dual-attempt binding of `_validate_and_transform`: `sig.bind(*args,
**kwargs)` and, on `TypeError`, a retry as `sig.bind(*args[1:], **kwargs)`
whose own error propagates. -/
def dualBind (sig : Signature) (args : List PyVal) (kwargs : List (String × PyVal)) :
    Except String (List (String × PyVal)) :=
  match sigBind sig args kwargs with
  | .ok m => .ok m
  | .error _ => sigBind sig args.tail kwargs

/-- `BoundArguments.apply_defaults()`: rebuild the arguments mapping in
declaration order, filling in the declared default for every parameter not
explicitly supplied. -/
def applyDefaults (sig : Signature) (m : List (String × PyVal)) : List (String × PyVal) :=
  sig.params.filterMap fun p =>
    match m.lookup p.name with
    | some v => some (p.name, v)
    | Option.none => p.defaultVal.map fun d => (p.name, d)

/-- A failure raised by the pydantic engine: `validationError` models
`pydantic.ValidationError` (the only kind `invoke` catches); `otherError`
models any other exception escaping `TypeAdapter(...).validate_python`. -/
inductive EngineFailure where
  | validationError (msg : String)
  | otherError (msg : String)

/-- The external validation engine, `TypeAdapter(hint).validate_python (val)`:
out of scope for this repository (pydantic), so abstract. -/
def Engine := Ann → PyVal → Except EngineFailure PyVal

/-- One call made to the external engine: the full declared hint and the raw
value handed to `validate_python`. -/
structure EngineCall where
  hint : Ann
  rawValue : PyVal

/-- What `_validate_and_transform`'s loop did with one bound parameter:
`skipped` means the `continue` branch ran (receiver name or absent hint) and
neither the classifier nor the engine was consulted; `classifiedOnly` means
`_requires_pydantic_validation` returned `False` and the engine was not
consulted; `validated` means the engine was invoked with the recorded call
and its result replaced the value. -/
inductive ParamAction where
  | skipped
  | classifiedOnly
  | validated (call : EngineCall)

/-- An exception escaping `_validate_and_transform`: a `TypeError` from
binding, a `KeyError` from `sig.parameters[name]` (unreachable for mappings
produced by binding), a `pydantic.ValidationError`, or any other engine
exception. -/
inductive TransformError where
  | typeError (msg : String)
  | keyError (msg : String)
  | validationErr (msg : String)
  | otherExn (msg : String)

/-- One iteration of the loop in `_validate_and_transform`: look the
parameter up in the signature, `continue` for `self`/`cls` or a missing
hint, consult `_requires_pydantic_validation`, and on `True` call the
engine, storing its result. -/
def processParam (engine : Engine) (sig : Signature) (name : String) (val : PyVal) :
    Except TransformError (PyVal × ParamAction) :=
  match sig.lookupParam name with
  | Option.none => .error (.keyError name)
  | some param =>
      if name == "self" || name == "cls" then .ok (val, .skipped)
      else
        match param.hint with
        | .empty => .ok (val, .skipped)
        | h =>
            if requiresPydanticValidation h then
              match engine h val with
              | .ok v => .ok (v, .validated ⟨h, val⟩)
              | .error (.validationError m) => .error (.validationErr m)
              | .error (.otherError m) => .error (.otherExn m)
            else .ok (val, .classifiedOnly)

/-- The whole loop of `_validate_and_transform` over
`bound.arguments.items()`, in order, stopping at the first exception; on
success it returns the final per-parameter values together with the action
taken for each. -/
def transformParams (engine : Engine) (sig : Signature) :
    List (String × PyVal) → Except TransformError (List (String × PyVal × ParamAction))
  | [] => .ok []
  | (name, val) :: rest =>
      match processParam engine sig name val with
      | .error e => .error e
      | .ok r =>
          match transformParams engine sig rest with
          | .error e => .error e
          | .ok tl => .ok ((name, r.1, r.2) :: tl)

/-- The keyword-overflow part of `BoundArguments.kwargs`: parameters after
the first gap that do have an entry are emitted as keywords. -/
def collectKw : List Param → List (String × PyVal) → List (String × PyVal)
  | [], _ => []
  | p :: ps, m =>
      match m.lookup p.name with
      | some v => (p.name, v) :: collectKw ps m
      | Option.none => collectKw ps m

/-- `BoundArguments.args` and `BoundArguments.kwargs`: the longest prefix of
parameters with entries is emitted positionally, everything after the first
gap goes to the keyword mapping. -/
def splitBound : List Param → List (String × PyVal) → List PyVal × List (String × PyVal)
  | [], _ => ([], [])
  | p :: ps, m =>
      match m.lookup p.name with
      | some v =>
          let r := splitBound ps m
          (v :: r.1, r.2)
      | Option.none => ([], collectKw ps m)

/-- `_validate_and_transform(func, args, kwargs)`: dual-attempt bind,
`apply_defaults`, the per-parameter loop, and the final write-back through
`bound.args` / `bound.kwargs` (derived by the caller via `splitBound`). -/
def validateAndTransform (engine : Engine) (sig : Signature)
    (args : List PyVal) (kwargs : List (String × PyVal)) :
    Except TransformError (List (String × PyVal × ParamAction)) :=
  match dualBind sig args kwargs with
  | .error msg => .error (.typeError msg)
  | .ok bound => transformParams engine sig (applyDefaults sig bound)

/-- What `getattr(ctx.cls, ctx.name, None)` resolves to for one method:
the marker flag `getattr(original_func, VALIDATE_META, False)` and the
method's signature (which `functools.wraps` preserves through the
`@validate` wrapper). -/
structure MethodInfo where
  flag : Bool
  sig : Signature

/-- The target class: a name-to-method table modelling attribute lookup. -/
structure PyClass where
  methods : List (String × MethodInfo)

def PyClass.lookup (c : PyClass) (n : String) : Option MethodInfo :=
  c.methods.lookup n

/-- `pico_ioc.MethodCtx`: target class, method name, positional arguments,
keyword arguments. -/
structure MethodCtx where
  cls : PyClass
  name : String
  args : List PyVal
  kwargs : List (String × PyVal)

/-- The observable behaviour of one `ValidationInterceptor.invoke` call:
`normal` means control reached `_call_next_async`; `validationFailed`
models `raise ValidationFailedError(ctx.name, e) from e`, carrying the
method name and the engine's diagnostic as its cause; `uncaught` is any
other exception propagating unwrapped. -/
inductive Outcome where
  | normal
  | validationFailed (method : String) (cause : String)
  | uncaught (e : TransformError)

/-- The full observable trace of one `invoke` call: the call context as the
continuation sees it (equal to the input context when no mutation
happened), the outcome, the list of contexts the continuation was invoked
with (`[ctx']` exactly when the outcome is `normal`), and the per-parameter
actions (recorded on the successful transform path). -/
structure InvokeTrace where
  finalCtx : MethodCtx
  outcome : Outcome
  contCalls : List MethodCtx
  actions : List (String × PyVal × ParamAction)

/-- The engine calls a trace's actions record, in parameter order. -/
def engineCallsOf (acts : List (String × PyVal × ParamAction)) : List EngineCall :=
  acts.filterMap fun t =>
    match t.2.2 with
    | .validated c => some c
    | _ => Option.none

/-- `ValidationInterceptor.invoke(ctx, call_next)`: resolve the method on
the target class; when unresolved or unmarked, forward to the continuation
with the context untouched; otherwise run `_validate_and_transform`,
writing the result back into `ctx.args` / `ctx.kwargs` on success, wrapping
a `pydantic.ValidationError` as `ValidationFailedError(ctx.name, e)`, and
letting every other exception propagate — in the two error cases the
continuation is never invoked and the context is never mutated. -/
def ValidationInterceptor.invoke (engine : Engine) (ctx : MethodCtx) : InvokeTrace :=
  match ctx.cls.lookup ctx.name with
  | Option.none => ⟨ctx, .normal, [ctx], []⟩
  | some info =>
      if info.flag = false then ⟨ctx, .normal, [ctx], []⟩
      else
        match validateAndTransform engine info.sig ctx.args ctx.kwargs with
        | .ok out =>
            let m := out.map fun t => (t.1, t.2.1)
            let r := splitBound info.sig.params m
            let ctx' : MethodCtx := { ctx with args := r.1, kwargs := r.2 }
            ⟨ctx', .normal, [ctx'], out⟩
        | .error (.validationErr e) => ⟨ctx, .validationFailed ctx.name e, [], []⟩
        | .error e => ⟨ctx, .uncaught e, [], []⟩

/-! Concrete fixtures mirroring the repository's own test services
(`tests/test_validation.py`): the pydantic model `Item`, hints
`Optional[Item]` (= `Union[Item, NoneType]`) and `List[Item]`, and the
signatures of `simple_method`, `optional_method` and
`method_with_defaults`. -/

/-- Hint for the pydantic model class `Item`. -/
def itemAnn : Ann := .baseModelClass "Item"

/-- Hint `Optional[Item]`, i.e. `Union[Item, NoneType]` with
`__args__ == (Item, NoneType)`. -/
def optAnn : Ann := .generic (.cons itemAnn (.cons (.otherClass "NoneType") .nil))

/-- Hint `List[Item]` with `__args__ == (Item,)`. -/
def listItemAnn : Ann := .generic (.cons itemAnn .nil)

/-- The receiver parameter `self` (no hint, no default). -/
def selfParam : Param := ⟨"self", .empty, Option.none⟩

/-- Signature of `simple_method(self, item: Item)`. -/
def sigSimple : Signature := ⟨[selfParam, ⟨"item", itemAnn, Option.none⟩]⟩

/-- Signature of `optional_method(self, item: Optional[Item] = None)`. -/
def sigOpt : Signature := ⟨[selfParam, ⟨"item", optAnn, some PyVal.none⟩]⟩

/-- Signature of `method_with_defaults(self, item: Item, limit: int = 10)`. -/
def sigDefaults : Signature :=
  ⟨[selfParam, ⟨"item", itemAnn, Option.none⟩, ⟨"limit", .otherClass "int", some (.int 10)⟩]⟩

/-- A service class carrying the test methods, all marked `@validate`,
plus the unmarked `non_validated`. -/
def testService : PyClass :=
  ⟨[("simple_method", ⟨true, sigSimple⟩),
    ("optional_method", ⟨true, sigOpt⟩),
    ("method_with_defaults", ⟨true, sigDefaults⟩),
    ("non_validated", ⟨false, sigSimple⟩)]⟩

/-- An engine that validates every raw value to itself (in particular it
maps `None` to `None`, as pydantic's `TypeAdapter(Optional[Item])` does). -/
def engineEcho : Engine := fun _ v => .ok v

example : requiresPydanticValidation optAnn = true := by rfl

example : requiresPydanticValidation listItemAnn = true := by rfl

example : requiresPydanticValidation (.otherClass "int") = false := by rfl

example : dualBind sigOpt [.obj 0, .none] [] = .ok [("self", .obj 0), ("item", .none)] := by rfl

example : dualBind sigOpt [.int 7] [] = .ok [("self", .int 7)] := by rfl

example : applyDefaults sigOpt [("self", .int 7)] = [("self", .int 7), ("item", .none)] := by rfl

example :
    ValidationInterceptor.invoke engineEcho ⟨testService, "optional_method", [.obj 0, .none], []⟩ =
      ⟨⟨testService, "optional_method", [.obj 0, .none], []⟩, .normal,
       [⟨testService, "optional_method", [.obj 0, .none], []⟩],
       [("self", .obj 0, .skipped), ("item", .none, .validated ⟨optAnn, .none⟩)]⟩ := by rfl

example :
    engineCallsOf (ValidationInterceptor.invoke engineEcho
      ⟨testService, "optional_method", [.obj 0, .none], []⟩).actions = [⟨optAnn, .none⟩] := by rfl

example : sigBind sigSimple [.obj 0, .int 7, .int 8] [] = .error "too many positional arguments" := by rfl

example :
    ValidationInterceptor.invoke engineEcho
      ⟨testService, "method_with_defaults", [.obj 0], [("item", .dict [("id", .vint 1)])]⟩ =
      ⟨⟨testService, "method_with_defaults", [.obj 0, .dict [("id", .vint 1)], .int 10], []⟩, .normal,
       [⟨testService, "method_with_defaults", [.obj 0, .dict [("id", .vint 1)], .int 10], []⟩],
       [("self", .obj 0, .skipped),
        ("item", .dict [("id", .vint 1)], .validated ⟨itemAnn, .dict [("id", .vint 1)]⟩),
        ("limit", .int 10, .classifiedOnly)]⟩ := by rfl

/-! The specification-side characterisation of validatable hints, and the
claim theorems. -/

/-- The spec's notion of a validatable declared type (§4.3 of the spec,
written from its words, to be compared with the source-derived
`requiresPydanticValidation`): the hint is itself a validatable structured
type, or it is a parametric wrapper at least one of whose inner type
arguments is validatable, recursively. -/
inductive ValidatableSpec : Ann → Prop where
  | base (n : String) : ValidatableSpec (.baseModelClass n)
  | wrapper (args : AnnArgs) (a : Ann) (ha : a ∈ args.toList)
      (hv : ValidatableSpec a) : ValidatableSpec (.generic args)

mutual
/-- Helper: the classifier agrees with the spec predicate on every hint. -/
theorem reqIffSpecAux : ∀ a : Ann, requiresPydanticValidation a = true ↔ ValidatableSpec a
  | .empty => by
      simp only [requiresPydanticValidation, classifyCore]
      exact ⟨fun h => by simp at h, fun h => by cases h⟩
  | .raising => by
      simp only [requiresPydanticValidation, classifyCore]
      exact ⟨fun h => by simp at h, fun h => by cases h⟩
  | .baseModelClass n => by
      simp only [requiresPydanticValidation, classifyCore]
      exact ⟨fun _ => .base n, fun _ => trivial⟩
  | .otherClass n => by
      simp only [requiresPydanticValidation, classifyCore]
      exact ⟨fun h => by simp at h, fun h => by cases h⟩
  | .generic args => by
      simp only [requiresPydanticValidation, classifyCore]
      constructor
      · intro h
        obtain ⟨a, ha, hv⟩ := (anyIffSpecAux args).mp h
        exact .wrapper args a ha hv
      · intro h
        cases h with
        | wrapper _ a ha hv => exact (anyIffSpecAux args).mpr ⟨a, ha, hv⟩
/-- Helper: `anyRequires` holds on an argument list exactly when some
member is validatable in the spec's sense. -/
theorem anyIffSpecAux : ∀ l : AnnArgs, anyRequires l = true ↔ ∃ a ∈ l.toList, ValidatableSpec a
  | .nil => by
      simp [anyRequires, AnnArgs.toList]
  | .cons a t => by
      simp only [anyRequires, AnnArgs.toList, Bool.or_eq_true, List.mem_cons]
      constructor
      · rintro (h | h)
        · refine ⟨a, Or.inl rfl, ?_⟩
          have ha : requiresPydanticValidation a = true := by
            simpa [requiresPydanticValidation] using h
          exact (reqIffSpecAux a).mp ha
        · obtain ⟨x, hx, hv⟩ := (anyIffSpecAux t).mp h
          exact ⟨x, Or.inr hx, hv⟩
      · rintro ⟨x, hx | hx, hv⟩
        · subst hx
          left
          have hx' : requiresPydanticValidation x = true := (reqIffSpecAux x).mpr hv
          simpa [requiresPydanticValidation] using hx'
        · right
          exact (anyIffSpecAux t).mpr ⟨x, hx, hv⟩
end

/-- C5: the type-requirement classifier marks a declared type validatable
if and only if it is itself a subclass of the validation engine's base
model type, or it is a parametric wrapper at least one of whose inner type
arguments classifies as validatable, recursively; every other hint
classifies as not validatable. -/
theorem C5_classifier_matches_spec (a : Ann) :
    requiresPydanticValidation a = true ↔ ValidatableSpec a :=
  reqIffSpecAux a

/-- C6: the classifier is total (it is a plain function into `Bool`) and
fail-open: a hint whose introspection raises classifies as not validatable
rather than propagating the error, and a failure while classifying an
inner type argument of a wrapper contributes nothing — classification of
the wrapper proceeds exactly as if the failing argument were absent. -/
theorem C6_classifier_fail_open (a : Ann) (args : AnnArgs) (e : String)
    (h : classifyCore a = .error e) :
    requiresPydanticValidation a = false
    ∧ requiresPydanticValidation (.generic (.cons a args)) =
        requiresPydanticValidation (.generic args) := by
  constructor
  · simp [requiresPydanticValidation, h]
  · simp [requiresPydanticValidation, classifyCore, anyRequires, h]

/-- Witness for C6 at the concrete raising hint: introspection of the hint
itself fails open, and a raising inner argument of `Union[<raising>, Item]`
is ignored, leaving the union validatable through `Item`. -/
theorem C6_witness :
    requiresPydanticValidation Ann.raising = false
    ∧ requiresPydanticValidation (.generic (.cons .raising (.cons itemAnn .nil))) =
        requiresPydanticValidation (.generic (.cons itemAnn .nil)) :=
  C6_classifier_fail_open .raising (.cons itemAnn .nil) "introspection raised" rfl

/-- C1 is refuted on the code: `_validate_and_transform` has no `None`
short-circuit, so for `optional_method(self, item: Optional[Item] = None)`
called with raw `item = None` the engine *is* invoked — the recorded engine
calls contain exactly one call, handing `None` to
`TypeAdapter(Optional[Item]).validate_python`.  (The value still ends up
`None` because the engine maps `None` to `None` for an optional type.) -/
theorem C1_counterexample :
    engineCallsOf (ValidationInterceptor.invoke engineEcho
        ⟨testService, "optional_method", [.obj 0, .none], []⟩).actions
      = [⟨optAnn, PyVal.none⟩]
    ∧ (ValidationInterceptor.invoke engineEcho
        ⟨testService, "optional_method", [.obj 0, .none], []⟩).finalCtx.args
      = [PyVal.obj 0, PyVal.none] :=
  ⟨rfl, rfl⟩

/-- C1 (amended): for a parameter whose declared type classifies as
validatable (in particular `Optional`-wrapping a model type), a raw `None`
is *not* short-circuited: it is handed to the validation engine with the
full declared hint, and the parameter's value remains `None` exactly
because the engine validates `None` to itself for such a hint. -/
theorem C1_none_reaches_engine (engine : Engine) (sig : Signature)
    (name : String) (param : Param)
    (hlook : sig.lookupParam name = some param)
    (hself : name ≠ "self") (hcls : name ≠ "cls")
    (hreq : requiresPydanticValidation param.hint = true)
    (heng : engine param.hint PyVal.none = .ok PyVal.none) :
    processParam engine sig name PyVal.none =
      .ok (PyVal.none, .validated ⟨param.hint, PyVal.none⟩) := by
  have hs : (name == "self") = false := by simpa using hself
  have hc : (name == "cls") = false := by simpa using hcls
  rcases hh : param.hint with _ | _ | n | n | args
  · rw [hh] at hreq
    simp [requiresPydanticValidation, classifyCore] at hreq
  all_goals
    rw [hh] at hreq heng
    simp [processParam, hlook, hs, hc, hh, hreq, heng]

/-- Witness for C1's amended theorem at the repository's own
`optional_method` parameter `item : Optional[Item] = None` with an engine
that, like pydantic, validates `None` to `None`. -/
theorem C1_witness :
    processParam engineEcho sigOpt "item" PyVal.none =
      .ok (PyVal.none, .validated ⟨optAnn, PyVal.none⟩) :=
  C1_none_reaches_engine engineEcho sigOpt "item" ⟨"item", optAnn, some PyVal.none⟩
    rfl (by decide) (by decide) rfl rfl

/-- C2 is refuted on the code: for the repository's own
`optional_method(self, item: Optional[Item] = None)`, the raw tuple with
the receiver present binds to `{self ↦ recv, item ↦ v}`, but with the
receiver removed the *first* bind attempt already succeeds — the data
argument is absorbed by `self` and `item` silently takes its default — so
the two calling conventions produce different per-parameter mappings. -/
theorem C2_counterexample :
    dualBind sigOpt [PyVal.obj 0, PyVal.int 7] [] =
      .ok [("self", PyVal.obj 0), ("item", PyVal.int 7)]
    ∧ dualBind sigOpt [PyVal.int 7] [] = .ok [("self", PyVal.int 7)]
    ∧ applyDefaults sigOpt [("self", PyVal.int 7)] =
        [("self", PyVal.int 7), ("item", PyVal.none)]
    ∧ ([("self", PyVal.obj 0), ("item", PyVal.int 7)] : List (String × PyVal)) ≠
        [("self", PyVal.int 7), ("item", PyVal.none)] :=
  ⟨rfl, rfl, rfl, by decide⟩

/-- C2 (amended): the receiver-present and receiver-removed conventions
produce the same mapping only when the full positional sequence fails to
bind — in that case the binder's retry is literally the receiver-removed
binding.  When the full sequence happens to bind (e.g. a trailing
defaulted parameter absorbs the shift), that binding is used as-is and may
differ from the receiver-removed one. -/
theorem C2_retry_is_receiver_dropped (sig : Signature) (recv : PyVal)
    (args : List PyVal) (kwargs : List (String × PyVal)) (e : String)
    (hfail : sigBind sig (recv :: args) kwargs = .error e) :
    dualBind sig (recv :: args) kwargs = sigBind sig args kwargs := by
  unfold dualBind
  rw [hfail]
  rfl

/-- Witness for C2's amended theorem: `simple_method(self, item: Item)`
handed three positional arguments fails the full bind (too many), and the
dual bind equals the receiver-dropped bind. -/
theorem C2_witness :
    dualBind sigSimple [PyVal.obj 0, PyVal.int 7, PyVal.int 8] [] =
      sigBind sigSimple [PyVal.int 7, PyVal.int 8] [] :=
  C2_retry_is_receiver_dropped sigSimple (PyVal.obj 0) [PyVal.int 7, PyVal.int 8] []
    "too many positional arguments" rfl

/-- C3: whenever the validation engine rejects some parameter's raw value
(`_validate_and_transform` escapes with a `pydantic.ValidationError`),
`invoke` raises the single wrapped `ValidationFailedError` carrying the
method name and the engine's diagnostic as its cause, the error is raised
before the continuation is reached, and the continuation is never invoked
for that call. -/
theorem C3_validation_failure_wrapped (engine : Engine) (ctx : MethodCtx)
    (info : MethodInfo) (e : String)
    (hres : ctx.cls.lookup ctx.name = some info)
    (hflag : info.flag = true)
    (hfail : validateAndTransform engine info.sig ctx.args ctx.kwargs =
      .error (.validationErr e)) :
    (ValidationInterceptor.invoke engine ctx).outcome = .validationFailed ctx.name e
    ∧ (ValidationInterceptor.invoke engine ctx).contCalls = [] := by
  unfold ValidationInterceptor.invoke
  rw [hres]
  simp only [hflag, hfail]
  exact ⟨rfl, rfl⟩

/-- An engine rejecting every raw value, as pydantic does for
`{"id": -5, "name": "Invalid"}` against `Item`'s constraint `id > 0`. -/
def engineRejectAll : Engine := fun _ _ =>
  .error (.validationError "1 validation error for Item: id must be greater than 0")

/-- Witness for C3 at `simple_method(self, item: Item)` with the invalid
raw mapping `{"id": -5, "name": "Invalid"}`. -/
theorem C3_witness :
    (ValidationInterceptor.invoke engineRejectAll
        ⟨testService, "simple_method",
         [.obj 0, .dict [("id", .vint (-5)), ("name", .vstr "Invalid")]], []⟩).outcome =
      .validationFailed "simple_method"
        "1 validation error for Item: id must be greater than 0"
    ∧ (ValidationInterceptor.invoke engineRejectAll
        ⟨testService, "simple_method",
         [.obj 0, .dict [("id", .vint (-5)), ("name", .vstr "Invalid")]], []⟩).contCalls = [] :=
  C3_validation_failure_wrapped engineRejectAll
    ⟨testService, "simple_method",
     [.obj 0, .dict [("id", .vint (-5)), ("name", .vstr "Invalid")]], []⟩
    ⟨true, sigSimple⟩ "1 validation error for Item: id must be greater than 0" rfl rfl rfl

/-- C4: for every unmarked method — the marker flag absent (false) or the
method not resolvable on the target class — and every input, the call
context's positional and keyword arguments are unchanged after processing,
the continuation is invoked exactly once with that unchanged context, and
neither error kind is produced. -/
theorem C4_unmarked_passthrough (engine : Engine) (ctx : MethodCtx)
    (h : ctx.cls.lookup ctx.name = Option.none
      ∨ ∃ info, ctx.cls.lookup ctx.name = some info ∧ info.flag = false) :
    ValidationInterceptor.invoke engine ctx = ⟨ctx, .normal, [ctx], []⟩ := by
  unfold ValidationInterceptor.invoke
  rcases h with h | ⟨info, h, hf⟩
  · rw [h]
  · rw [h]
    simp [hf]

/-- Witness for C4 at the unmarked `non_validated` method called with a raw
mapping that would fail validation were it attempted. -/
theorem C4_witness :
    ValidationInterceptor.invoke engineRejectAll
        ⟨testService, "non_validated", [.obj 0, .dict [("bad", .vstr "data")]], []⟩ =
      ⟨⟨testService, "non_validated", [.obj 0, .dict [("bad", .vstr "data")]], []⟩, .normal,
       [⟨testService, "non_validated", [.obj 0, .dict [("bad", .vstr "data")]], []⟩], []⟩ :=
  C4_unmarked_passthrough engineRejectAll
    ⟨testService, "non_validated", [.obj 0, .dict [("bad", .vstr "data")]], []⟩
    (Or.inr ⟨⟨false, sigSimple⟩, rfl, rfl⟩)

/-- C7: when both binding attempts fail, the second attempt's `TypeError`
propagates out of `invoke` unwrapped — the outcome is the uncaught binding
error, the continuation is never invoked, and the error is never converted
into the wrapped validation-failure kind. -/
theorem C7_bind_error_unwrapped (engine : Engine) (ctx : MethodCtx)
    (info : MethodInfo) (e₁ e₂ : String)
    (hres : ctx.cls.lookup ctx.name = some info)
    (hflag : info.flag = true)
    (h1 : sigBind info.sig ctx.args ctx.kwargs = .error e₁)
    (h2 : sigBind info.sig ctx.args.tail ctx.kwargs = .error e₂) :
    (ValidationInterceptor.invoke engine ctx).outcome = .uncaught (.typeError e₂)
    ∧ (ValidationInterceptor.invoke engine ctx).contCalls = []
    ∧ ∀ n c, (ValidationInterceptor.invoke engine ctx).outcome ≠ .validationFailed n c := by
  have hdual : dualBind info.sig ctx.args ctx.kwargs = .error e₂ := by
    unfold dualBind
    rw [h1, h2]
  have hvt : validateAndTransform engine info.sig ctx.args ctx.kwargs =
      .error (.typeError e₂) := by
    unfold validateAndTransform
    rw [hdual]
  unfold ValidationInterceptor.invoke
  rw [hres]
  simp only [hflag, hvt]
  refine ⟨rfl, rfl, fun n c => ?_⟩
  simp

/-- Witness for C7: `simple_method(self, item: Item)` called with no
arguments at all fails both bind attempts with a missing required
argument, which surfaces uncaught. -/
theorem C7_witness :
    (ValidationInterceptor.invoke engineEcho
        ⟨testService, "simple_method", [], []⟩).outcome =
      .uncaught (.typeError "missing a required argument")
    ∧ (ValidationInterceptor.invoke engineEcho
        ⟨testService, "simple_method", [], []⟩).contCalls = []
    ∧ ∀ n c, (ValidationInterceptor.invoke engineEcho
        ⟨testService, "simple_method", [], []⟩).outcome ≠ .validationFailed n c :=
  C7_bind_error_unwrapped engineEcho ⟨testService, "simple_method", [], []⟩
    ⟨true, sigSimple⟩ "missing a required argument" "missing a required argument" rfl rfl rfl rfl

/-- C9: transformation is all-or-nothing on the call context — when
binding succeeded but validation of some parameter fails, `invoke` leaves
the context's positional and keyword arguments exactly as they were
(replacement happens on the detached bound-arguments structure, and the
context is written only after every parameter succeeds), and the
continuation is not invoked. -/
theorem C9_failure_leaves_context_unchanged (engine : Engine) (ctx : MethodCtx)
    (info : MethodInfo) (m : List (String × PyVal)) (e : String)
    (hres : ctx.cls.lookup ctx.name = some info)
    (hflag : info.flag = true)
    (hbind : dualBind info.sig ctx.args ctx.kwargs = .ok m)
    (hfail : transformParams engine info.sig (applyDefaults info.sig m) =
      .error (.validationErr e)) :
    (ValidationInterceptor.invoke engine ctx).finalCtx = ctx
    ∧ (ValidationInterceptor.invoke engine ctx).contCalls = [] := by
  have hvt : validateAndTransform engine info.sig ctx.args ctx.kwargs =
      .error (.validationErr e) := by
    unfold validateAndTransform
    rw [hbind]
    exact hfail
  unfold ValidationInterceptor.invoke
  rw [hres]
  simp only [hflag, hvt]
  exact ⟨rfl, rfl⟩

/-- Signature of a marked method `two_items_method(self, a: Item, b: Item)`
with two independently validated parameters. -/
def sigTwoItems : Signature :=
  ⟨[selfParam, ⟨"a", itemAnn, Option.none⟩, ⟨"b", itemAnn, Option.none⟩]⟩

/-- A service whose `two_items_method` is marked. -/
def complexService : PyClass := ⟨[("two_items_method", ⟨true, sigTwoItems⟩)]⟩

/-- An engine accepting exactly the raw mapping `{"id": 1}` (validating it
to an `Item` instance) and rejecting everything else. -/
def enginePickyId : Engine := fun _ v =>
  match v with
  | .dict [("id", .vint 1)] => .ok (.model "Item" [("id", .vint 1)])
  | _ => .error (.validationError "id must be greater than 0")

/-- Witness for C9 in the interesting shape: the first parameter `a`
validates successfully, the second parameter `b` fails, and the context is
left untouched — the already-validated `a` is not written back. -/
theorem C9_witness :
    (ValidationInterceptor.invoke enginePickyId
        ⟨complexService, "two_items_method",
         [.obj 0, .dict [("id", .vint 1)], .dict [("id", .vint (-1))]], []⟩).finalCtx =
      ⟨complexService, "two_items_method",
       [.obj 0, .dict [("id", .vint 1)], .dict [("id", .vint (-1))]], []⟩
    ∧ (ValidationInterceptor.invoke enginePickyId
        ⟨complexService, "two_items_method",
         [.obj 0, .dict [("id", .vint 1)], .dict [("id", .vint (-1))]], []⟩).contCalls = [] :=
  C9_failure_leaves_context_unchanged enginePickyId
    ⟨complexService, "two_items_method",
     [.obj 0, .dict [("id", .vint 1)], .dict [("id", .vint (-1))]], []⟩
    ⟨true, sigTwoItems⟩
    [("self", .obj 0), ("a", .dict [("id", .vint 1)]), ("b", .dict [("id", .vint (-1))])]
    "id must be greater than 0" rfl rfl rfl rfl

/-- Helper: the `continue` branch of the loop — a parameter named `self` or
`cls`, or one with no declared hint, is returned unchanged with action
`skipped`, before the classifier or the engine is consulted. -/
theorem processParam_skip (engine : Engine) (sig : Signature) (name : String)
    (val : PyVal) (p : Param)
    (hlook : sig.lookupParam name = some p)
    (hskip : name = "self" ∨ name = "cls" ∨ p.hint = .empty) :
    processParam engine sig name val = .ok (val, .skipped) := by
  unfold processParam
  rw [hlook]
  rcases hskip with h | h | h
  · subst h
    simp
  · subst h
    simp
  · by_cases hb : (name == "self" || name == "cls") = true
    · simp [hb]
    · simp only [Bool.not_eq_true] at hb
      simp only [hb, Bool.false_eq_true, if_false]
      rw [h]

/-- C8: for every marked method, every bound parameter that has no declared
type hint, and every receiver parameter (`self`/`cls`), is skipped by the
transformation loop — its entry in the loop's output keeps the bound value
unchanged with action `skipped`, meaning neither the type-requirement
classifier nor the engine was consulted for it. -/
theorem C8_skipped_never_altered (engine : Engine) (sig : Signature)
    (m : List (String × PyVal)) (out : List (String × PyVal × ParamAction))
    (hok : transformParams engine sig m = .ok out)
    (i : Nat) (hi : i < m.length) (p : Param)
    (hlook : sig.lookupParam (m.get ⟨i, hi⟩).1 = some p)
    (hskip : (m.get ⟨i, hi⟩).1 = "self" ∨ (m.get ⟨i, hi⟩).1 = "cls" ∨ p.hint = .empty) :
    ∃ hi' : i < out.length,
      out.get ⟨i, hi'⟩ = ((m.get ⟨i, hi⟩).1, (m.get ⟨i, hi⟩).2, ParamAction.skipped) := by
  induction m generalizing out i with
  | nil => exact absurd hi (by simp)
  | cons hd tl ih =>
      obtain ⟨name, val⟩ := hd
      rw [transformParams] at hok
      cases hpp : processParam engine sig name val with
      | error e =>
          rw [hpp] at hok
          cases hok
      | ok r =>
          rw [hpp] at hok
          cases htl : transformParams engine sig tl with
          | error e =>
              rw [htl] at hok
              cases hok
          | ok tlout =>
              rw [htl] at hok
              obtain rfl : (name, r.1, r.2) :: tlout = out := by
                cases hok
                rfl
              cases i with
              | zero =>
                  have hstep := processParam_skip engine sig name val p hlook hskip
                  rw [hstep] at hpp
                  refine ⟨Nat.succ_pos _, ?_⟩
                  cases hpp
                  rfl
              | succ j =>
                  have hj : j < tl.length := Nat.succ_lt_succ_iff.mp hi
                  obtain ⟨hj', hout⟩ := ih tlout htl j hj hlook hskip
                  exact ⟨Nat.succ_lt_succ hj', hout⟩

/-- Witness for C8 at `optional_method`'s bound arguments: the receiver
entry `self` at index 0 is returned unchanged with action `skipped`. -/
theorem C8_witness :
    ∃ hi' : 0 < ([("self", PyVal.obj 0, ParamAction.skipped),
        ("item", PyVal.none, ParamAction.validated ⟨optAnn, PyVal.none⟩)] :
          List (String × PyVal × ParamAction)).length,
      ([("self", PyVal.obj 0, ParamAction.skipped),
        ("item", PyVal.none, ParamAction.validated ⟨optAnn, PyVal.none⟩)] :
          List (String × PyVal × ParamAction)).get ⟨0, hi'⟩ =
        ("self", PyVal.obj 0, ParamAction.skipped) :=
  C8_skipped_never_altered engineEcho sigOpt [("self", PyVal.obj 0), ("item", PyVal.none)]
    [("self", PyVal.obj 0, ParamAction.skipped),
     ("item", PyVal.none, ParamAction.validated ⟨optAnn, PyVal.none⟩)]
    rfl 0 (by decide) selfParam rfl (Or.inl rfl)

/-- Helper: extending an association list at the front preserves successful
lookups. -/
theorem lookup_isSome_cons (x n : String) (v : PyVal) (m : List (String × PyVal))
    (h : (m.lookup x).isSome) : (((n, v) :: m).lookup x).isSome := by
  cases hx : x == n <;> simp [List.lookup, hx, h]

/-- Helper: a successful keyword-phase bind covers every remaining
parameter — each either got an explicit entry or has a declared default. -/
theorem bindKw_covers : ∀ (ps : List Param) (kw : List (String × PyVal)) m,
    bindKw ps kw = .ok m → ∀ p ∈ ps, (m.lookup p.name).isSome ∨ p.defaultVal.isSome
  | [], _, _, _, p, hp => absurd hp (List.not_mem_nil p)
  | q :: ps, kw, m, hok, p, hp => by
      rw [bindKw] at hok
      cases hkw : kw.lookup q.name with
      | some v =>
          rw [hkw] at hok
          cases hrest : bindKw ps (kw.eraseP fun r => r.1 == q.name) with
          | error e =>
              rw [hrest] at hok
              cases hok
          | ok rest =>
              rw [hrest] at hok
              obtain rfl : (q.name, v) :: rest = m := by
                cases hok
                rfl
              rcases List.mem_cons.mp hp with rfl | hp'
              · left
                simp [List.lookup]
              · rcases bindKw_covers ps _ rest hrest p hp' with h | h
                · exact Or.inl (lookup_isSome_cons _ _ _ _ h)
                · exact Or.inr h
      | none =>
          rw [hkw] at hok
          by_cases hd : q.defaultVal.isSome
          · rw [if_pos hd] at hok
            rcases List.mem_cons.mp hp with rfl | hp'
            · exact Or.inr hd
            · exact bindKw_covers ps kw m hok p hp'
          · rw [if_neg hd] at hok
            cases hok

/-- Helper: a successful positional-plus-keyword bind covers every
parameter — each either got an explicit entry or has a declared default. -/
theorem sigBindAux_covers (ps : List Param) (args : List PyVal) :
    ∀ (kw : List (String × PyVal)) m, sigBindAux ps args kw = .ok m →
      ∀ p ∈ ps, (m.lookup p.name).isSome ∨ p.defaultVal.isSome := by
  induction args generalizing ps with
  | nil =>
      intro kw m hok p hp
      rw [sigBindAux] at hok
      exact bindKw_covers ps kw m hok p hp
  | cons a rest ih =>
      intro kw m hok p hp
      cases ps with
      | nil => exact absurd hp (List.not_mem_nil p)
      | cons q ps =>
          rw [sigBindAux] at hok
          by_cases hc : (kw.lookup q.name).isSome
          · rw [if_pos hc] at hok
            cases hok
          · rw [if_neg hc] at hok
            cases hrec : sigBindAux ps rest kw with
            | error e =>
                rw [hrec] at hok
                cases hok
            | ok m' =>
                rw [hrec] at hok
                obtain rfl : (q.name, a) :: m' = m := by
                  cases hok
                  rfl
                rcases List.mem_cons.mp hp with rfl | hp'
                · left
                  simp [List.lookup]
                · rcases ih ps kw m' hrec p hp' with h | h
                  · exact Or.inl (lookup_isSome_cons _ _ _ _ h)
                  · exact Or.inr h

/-- Helper: either way the dual-attempt bind succeeds, every parameter is
covered by an explicit entry or a declared default. -/
theorem dualBind_covers (sig : Signature) (args : List PyVal)
    (kw : List (String × PyVal)) (m : List (String × PyVal))
    (hok : dualBind sig args kw = .ok m) :
    ∀ p ∈ sig.params, (m.lookup p.name).isSome ∨ p.defaultVal.isSome := by
  unfold dualBind at hok
  cases h1 : sigBind sig args kw with
  | ok m1 =>
      rw [h1] at hok
      obtain rfl : m1 = m := by
        cases hok
        rfl
      exact sigBindAux_covers sig.params args kw m1 h1
  | error e =>
      rw [h1] at hok
      exact sigBindAux_covers sig.params args.tail kw m hok

/-- Helper: when every parameter is covered, `apply_defaults` produces one
entry per parameter, in declaration order. -/
theorem applyDefaults_names (sig : Signature) (m : List (String × PyVal))
    (h : ∀ p ∈ sig.params, (m.lookup p.name).isSome ∨ p.defaultVal.isSome) :
    (applyDefaults sig m).map (fun t => t.1) = sig.params.map (fun p => p.name) := by
  unfold applyDefaults
  obtain ⟨ps⟩ := sig
  simp only at h ⊢
  induction ps with
  | nil => rfl
  | cons p ps ih =>
      cases hm : m.lookup p.name with
      | some v =>
          simp only [List.filterMap_cons, hm, List.map_cons]
          exact congrArg (List.cons p.name) (ih fun q hq => h q (List.mem_cons_of_mem p hq))
      | none =>
          rcases h p (List.mem_cons_self p ps) with hl | hd
          · rw [hm] at hl
            cases hl
          · obtain ⟨d, hd'⟩ := Option.isSome_iff_exists.mp hd
            simp only [List.filterMap_cons, hm, hd', Option.map_some', List.map_cons]
            exact congrArg (List.cons p.name) (ih fun q hq => h q (List.mem_cons_of_mem p hq))

/-- Helper: the transformation loop preserves the names and the order of
the bound-arguments mapping. -/
theorem transformParams_names (engine : Engine) (sig : Signature) :
    ∀ (m : List (String × PyVal)) out, transformParams engine sig m = .ok out →
      out.map (fun t => t.1) = m.map (fun t => t.1)
  | [], out, hok => by
      cases hok
      rfl
  | (name, val) :: rest, out, hok => by
      rw [transformParams] at hok
      cases hpp : processParam engine sig name val with
      | error e =>
          rw [hpp] at hok
          cases hok
      | ok r =>
          rw [hpp] at hok
          cases htl : transformParams engine sig rest with
          | error e =>
              rw [htl] at hok
              cases hok
          | ok tl =>
              rw [htl] at hok
              obtain rfl : (name, r.1, r.2) :: tl = out := by
                cases hok
                rfl
              simp only [List.map_cons]
              exact congrArg (List.cons name) (transformParams_names engine sig rest tl htl)

/-- Helper: looking a key up past a prefix that does not contain it. -/
theorem lookup_append_right (x : String) : ∀ (pre rest : List (String × PyVal)),
    x ∉ pre.map Prod.fst → (pre ++ rest).lookup x = rest.lookup x
  | [], _, _ => rfl
  | (k, v) :: pre, rest, h => by
      simp only [List.map_cons, List.mem_cons, not_or] at h
      obtain ⟨hk, hpre⟩ := h
      have hbeq : (x == k) = false := beq_eq_false_iff_ne.mpr hk
      simp only [List.cons_append, List.lookup, hbeq]
      exact lookup_append_right x pre rest hpre

/-- Helper: when a mapping's keys are exactly the parameter names (in
order, without duplicates), `BoundArguments.args` emits every value
positionally in declaration order and `BoundArguments.kwargs` is empty. -/
theorem splitBound_full : ∀ (ps : List Param) (pre rest : List (String × PyVal)),
    rest.map Prod.fst = ps.map (fun p => p.name) →
    (((pre ++ rest).map Prod.fst).Nodup) →
    splitBound ps (pre ++ rest) = (rest.map Prod.snd, [])
  | [], pre, rest, hnames, _ => by
      have hre : rest = [] := by
        cases rest with
        | nil => rfl
        | cons a t => simp at hnames
      subst hre
      rfl
  | p :: ps, pre, rest, hnames, hnd => by
      cases rest with
      | nil => simp at hnames
      | cons hd tlr =>
          obtain ⟨n, v⟩ := hd
          simp only [List.map_cons, List.cons.injEq] at hnames
          obtain ⟨hn, htl⟩ := hnames
          subst hn
          have hnotpre : p.name ∉ pre.map Prod.fst := by
            intro hmem
            rw [List.map_append, List.map_cons, List.nodup_append] at hnd
            exact hnd.2.2 hmem (List.mem_cons_self p.name _)
          have hlook : (pre ++ (p.name, v) :: tlr).lookup p.name = some v := by
            rw [lookup_append_right p.name pre _ hnotpre]
            simp [List.lookup]
          rw [splitBound, hlook]
          have hrw : pre ++ (p.name, v) :: tlr = (pre ++ [(p.name, v)]) ++ tlr := by
            simp
          have hrec := splitBound_full ps (pre ++ [(p.name, v)]) tlr htl
            (by rw [← hrw]; exact hnd)
          rw [hrw, hrec]
          rfl

/-- C10: for every marked method whose binding and validation succeed, the
call context is rewritten in canonical bound form — the transformed
mapping has exactly one entry per declared parameter, in declaration order
(defaults for unsupplied parameters now explicit), all of it is forwarded
positionally (so a parameter the caller passed by keyword moves to the
positional sequence), the keyword mapping is emptied, and the continuation
is invoked exactly once with that rewritten context. -/
theorem C10_success_canonicalizes (engine : Engine) (ctx : MethodCtx)
    (info : MethodInfo) (m : List (String × PyVal))
    (out : List (String × PyVal × ParamAction))
    (hres : ctx.cls.lookup ctx.name = some info)
    (hflag : info.flag = true)
    (hnd : (info.sig.params.map (fun p => p.name)).Nodup)
    (hbind : dualBind info.sig ctx.args ctx.kwargs = .ok m)
    (hok : transformParams engine info.sig (applyDefaults info.sig m) = .ok out) :
    out.map (fun t => t.1) = info.sig.params.map (fun p => p.name)
    ∧ ValidationInterceptor.invoke engine ctx =
      ⟨{ ctx with args := out.map (fun t => t.2.1), kwargs := [] }, .normal,
       [{ ctx with args := out.map (fun t => t.2.1), kwargs := [] }], out⟩ := by
  have hcov := dualBind_covers info.sig ctx.args ctx.kwargs m hbind
  have hadn := applyDefaults_names info.sig m hcov
  have htn := transformParams_names engine info.sig (applyDefaults info.sig m) out hok
  have hnameseq : out.map (fun t => t.1) = info.sig.params.map (fun p => p.name) :=
    htn.trans hadn
  refine ⟨hnameseq, ?_⟩
  have hvt : validateAndTransform engine info.sig ctx.args ctx.kwargs = .ok out := by
    unfold validateAndTransform
    rw [hbind]
    exact hok
  have hm' : (out.map (fun t => (t.1, t.2.1))).map Prod.fst =
      info.sig.params.map (fun p => p.name) := by
    rw [List.map_map]
    exact hnameseq
  have hsplit : splitBound info.sig.params (out.map (fun t => (t.1, t.2.1))) =
      ((out.map (fun t => (t.1, t.2.1))).map Prod.snd, []) := by
    have h0 := splitBound_full info.sig.params [] (out.map fun t => (t.1, t.2.1))
      hm' (by rw [List.nil_append, hm']; exact hnd)
    rw [List.nil_append] at h0
    exact h0
  have hsnd : (out.map (fun t => (t.1, t.2.1))).map Prod.snd =
      out.map (fun t => t.2.1) := by
    rw [List.map_map]
    rfl
  unfold ValidationInterceptor.invoke
  rw [hres]
  simp only [hflag, hvt, hsplit, hsnd]
  rfl

/-- Witness for C10 at `method_with_defaults(self, item: Item, limit: int
= 10)` called with the receiver positional and `item` by keyword: the
rewritten context carries `self`, the validated `item` and the explicit
default `limit = 10` positionally, with empty keywords. -/
theorem C10_witness :
    ([("self", PyVal.obj 0, ParamAction.skipped),
      ("item", PyVal.dict [("id", PrimVal.vint 1)],
        ParamAction.validated ⟨itemAnn, PyVal.dict [("id", PrimVal.vint 1)]⟩),
      ("limit", PyVal.int 10, ParamAction.classifiedOnly)] :
        List (String × PyVal × ParamAction)).map (fun t => t.1) =
      sigDefaults.params.map (fun p => p.name)
    ∧ ValidationInterceptor.invoke engineEcho
        ⟨testService, "method_with_defaults", [.obj 0], [("item", .dict [("id", .vint 1)])]⟩ =
      ⟨⟨testService, "method_with_defaults",
        [.obj 0, .dict [("id", .vint 1)], .int 10], []⟩, .normal,
       [⟨testService, "method_with_defaults",
         [.obj 0, .dict [("id", .vint 1)], .int 10], []⟩],
       [("self", PyVal.obj 0, ParamAction.skipped),
        ("item", PyVal.dict [("id", PrimVal.vint 1)],
          ParamAction.validated ⟨itemAnn, PyVal.dict [("id", PrimVal.vint 1)]⟩),
        ("limit", PyVal.int 10, ParamAction.classifiedOnly)]⟩ :=
  C10_success_canonicalizes engineEcho
    ⟨testService, "method_with_defaults", [.obj 0], [("item", .dict [("id", .vint 1)])]⟩
    ⟨true, sigDefaults⟩
    [("self", PyVal.obj 0), ("item", PyVal.dict [("id", PrimVal.vint 1)])]
    [("self", PyVal.obj 0, ParamAction.skipped),
     ("item", PyVal.dict [("id", PrimVal.vint 1)],
       ParamAction.validated ⟨itemAnn, PyVal.dict [("id", PrimVal.vint 1)]⟩),
     ("limit", PyVal.int 10, ParamAction.classifiedOnly)]
    rfl rfl (by decide) rfl rfl

end PicoPydantic
